import Mathlib

/-!
# Shallow embedding of the `ring-vrf` Thin-VRF core

This file embeds the two source files of the repository:

* `src/vrf-ad-kc/src/thin.rs` — the Thin VRF flavor: `ThinVrf`, `schnorr_io`,
  `thin_vrf_merge`, `SecretKey::new_thin_witness`, `SecretKey::sign_thin_vrf`,
  `Witness::sign_final`, `ThinVrf::verify_thin_vrf`;
* `src/bandersnatch_vrfs/src/lib.rs` — the bandersnatch wrapper:
  `Message::into_vrf_input`, `thin_vrf`, `pedersen_vrf`, `SecretKey::from_seed`,
  `SecretKey::to_public`, `SecretKey::sign_thin_vrf`, `SecretKey::sign_ring_vrf`.

The elliptic-curve group is abstracted, as the specification's §6 does, to an
additive commutative group `P` acted on by the scalar field `S` (a commutative
ring) through a module structure; the small-order (cofactor) subgroup is an
abstract boolean predicate `small : P → Bool`, and cofactor-aware equality of
two points is membership of their difference in that subgroup.

The Fiat-Shamir transcript is modelled as the explicit list of labelled
appends performed on it; challenge derivation, delinearization-coefficient
derivation and witness-scalar derivation are uninterpreted deterministic
functions of that accumulated state, bundled in `TranscriptOps`.  Routines of
the repository that are not under `src/` (`vrfs_delinearize`,
`eq_mod_small_cofactor_projective`, `SecretKey::from_seed`'s inner key
derivation, the point sampler used by `into_vrf_input`) are modelled from the
specification; each such definition says so in its doc comment.
-/

namespace RingVrf

/-- One labelled append performed on a Fiat-Shamir signing transcript.
The Thin VRF code appends input/preoutput pairs (`append`, label `PublicKey`),
64-bit counts (`append_u64`, label `IOs`), lists of pairs (`append_slice`,
label `VrfInOut`) and single curve points (`append`, label `Witness`). -/
inductive TEntry (P : Type) where
  | ioPair (label : String) (input preoutput : P)
  | count (label : String) (n : Nat)
  | ioList (label : String) (l : List (P × P))
  | point (label : String) (pt : P)
  deriving DecidableEq

/-- `VrfInput` of `dleq_vrf::vrf`: a wrapper around one curve point, the point
the VRF is evaluated at. -/
structure VrfInput (P : Type) where
  pt : P
  deriving DecidableEq

/-- `VrfPreOut` of `dleq_vrf::vrf`: a wrapper around one curve point, the VRF
result before output hashing. -/
structure VrfPreOut (P : Type) where
  pt : P
  deriving DecidableEq

/-- `VrfInOut` of `dleq_vrf::vrf`: one input paired with one preoutput. -/
structure VrfInOut (P : Type) where
  input : VrfInput P
  preoutput : VrfPreOut P
  deriving DecidableEq

/-- The Thin VRF flavor of `thin.rs`: configured by its keying base point. -/
structure ThinVrf (P : Type) where
  keying_base : P
  deriving DecidableEq

/-- `PublicKey` of `dleq_vrf::keys`: the public curve point
`key · keying_base`. -/
structure PublicKey (P : Type) where
  pt : P
  deriving DecidableEq

/-- `SecretKey` of `dleq_vrf::keys` for the Thin VRF flavor, per §3 of the
spec: the secret scalar together with the nonce seed feeding witness
derivation, and the flavor it is keyed on. -/
structure SecretKey (S P : Type) where
  flavor : ThinVrf P
  key : S
  nonce_seed : List Nat
  deriving DecidableEq

/-- `Witness` of `dleq_vrf::flavor`: the ephemeral nonce commitment `r = k·I`
and its scalar `k`. -/
structure Witness (S P : Type) where
  r : P
  k : S
  deriving DecidableEq

/-- `Signature` of `dleq_vrf::flavor` at the Thin VRF flavor: the key
commitment is the unit value, plus the nonce commitment `r` and response `s`. -/
structure Signature (S P : Type) where
  compk : Unit
  r : P
  s : S
  deriving DecidableEq

/-- `SignatureError` of `dleq_vrf::error`, per §7 of the spec. -/
inductive SignatureError where
  | Invalid
  | InvalidArity
  | HashToInputFailure
  deriving DecidableEq

/-- The deterministic transcript-derived quantities, per §4.1 of the spec:
`challenge` maps accumulated transcript state and a label to a scalar;
`coeff` gives the i-th delinearization coefficient derived from the state;
`witnessScalar` derives the ephemeral witness scalar from the state, a label,
secret materials, and the external RNG (abstracted as a seed). -/
structure TranscriptOps (S P : Type) where
  challenge : List (TEntry P) → String → S
  coeff : List (TEntry P) → Nat → S
  witnessScalar : List (TEntry P) → String → List (List Nat) → Nat → S

variable {S : Type} {P : Type}

/-- Linear combination `Σ cᵢ • pᵢ` over paired lists of scalars and points. -/
def combLin [SMul S P] [AddCommMonoid P] (cs : List S) (ps : List P) : P :=
  (List.zipWith (fun c p => c • p) cs ps).sum

/-- The list of the first `n` delinearization coefficients derived from
transcript state `t`. -/
def coeffList (ops : TranscriptOps S P) (t : List (TEntry P)) (n : Nat) : List S :=
  (List.range n).map (ops.coeff t)

/-- `ThinVrf::schnorr_io` (`thin.rs` lines 47–52): attach a public key to its
base point, forming the pair `(keying_base, public_point)`. -/
def schnorr_io (fl : ThinVrf P) (public : PublicKey P) : VrfInOut P :=
  { input := ⟨fl.keying_base⟩, preoutput := ⟨public.pt⟩ }

/-- The raw point pair of a `VrfInOut`, as absorbed by transcript appends. -/
def ioEntry (io : VrfInOut P) : P × P :=
  (io.input.pt, io.preoutput.pt)

/-- Modelled from the spec: `vrf::vrfs_delinearize` lives in the repository's
`vrf` module, which is not under `src/`.  Per §4.2, it derives N deterministic
scalar coefficients from the transcript, one per supplied pair — the
public-key pair's own coefficient being implicitly 1 — and returns
`combined.input = Σ cᵢ·input_i + 1·pk_input` and
`combined.preoutput = Σ cᵢ·preoutput_i + 1·pk_preoutput`. -/
def vrfs_delinearize [SMul S P] [AddCommMonoid P] (ops : TranscriptOps S P)
    (t : List (TEntry P)) (ios : List (VrfInOut P)) (pk_io : VrfInOut P) :
    VrfInOut P :=
  let cs := coeffList ops t ios.length
  { input := ⟨combLin cs (ios.map (fun io => io.input.pt)) + pk_io.input.pt⟩,
    preoutput := ⟨combLin cs (ios.map (fun io => io.preoutput.pt)) + pk_io.preoutput.pt⟩ }

/-- `ThinVrf::thin_vrf_merge` (`thin.rs` lines 55–65): append the public-key
pair (label `PublicKey`); if the supplied list is empty return that pair
unchanged; otherwise append the count (label `IOs`) and the list (label
`VrfInOut`) and delinearize, the public-key pair chained last.  Returns the
resulting transcript state together with the combined pair. -/
def thin_vrf_merge [SMul S P] [AddCommMonoid P] (ops : TranscriptOps S P)
    (fl : ThinVrf P) (t : List (TEntry P)) (public : PublicKey P)
    (ios : List (VrfInOut P)) : List (TEntry P) × VrfInOut P :=
  let io := schnorr_io fl public
  let t := t ++ [TEntry.ioPair "PublicKey" io.input.pt io.preoutput.pt]
  if ios.length = 0 then (t, io)
  else
    let t := t ++ [TEntry.count "IOs" ios.length,
                   TEntry.ioList "VrfInOut" (ios.map ioEntry)]
    (t, vrfs_delinearize ops t ios io)

/-- `SecretKey::as_publickey` / `to_public` of `dleq_vrf::keys`, per §3 of the
spec: the public point is `key · keying_base`. -/
def SecretKey.as_publickey [SMul S P] (sk : SecretKey S P) : PublicKey P :=
  ⟨sk.key • sk.flavor.keying_base⟩

/-- `SecretKey::new_thin_witness` (`thin.rs` lines 72–82): derive the witness
scalar `k` via `t.witnesses(b"MakeWitness", &[&self.nonce_seed], rng)` and
commit `r = k · input`. -/
def new_thin_witness [SMul S P] (ops : TranscriptOps S P) (sk : SecretKey S P)
    (t : List (TEntry P)) (input : VrfInput P) (rng : Nat) : Witness S P :=
  let k := ops.witnessScalar t "MakeWitness" [sk.nonce_seed] rng
  { r := k • input.pt, k := k }

/-- `Witness::sign_final` (`thin.rs` lines 103–112): append `r` (label
`Witness`), derive the challenge `c` (label `ThinVrfChallenge`), and respond
with `s = k + c · secret.key`.  Returns the transcript state as well, so that
the append ordering is part of the model. -/
def sign_final [Mul S] [Add S] (ops : TranscriptOps S P) (w : Witness S P)
    (t : List (TEntry P)) (secret : SecretKey S P) :
    List (TEntry P) × Signature S P :=
  let t := t ++ [TEntry.point "Witness" w.r]
  let c := ops.challenge t "ThinVrfChallenge"
  (t, { compk := (), r := w.r, s := w.k + c * secret.key })

/-- `SecretKey::sign_thin_vrf` (`thin.rs` lines 87–96): merge, then construct
the witness late, then finalize. -/
def sign_thin_vrf [SMul S P] [AddCommMonoid P] [Mul S] [Add S]
    (ops : TranscriptOps S P) (sk : SecretKey S P) (t : List (TEntry P))
    (ios : List (VrfInOut P)) (rng : Nat) : List (TEntry P) × Signature S P :=
  let m := thin_vrf_merge ops sk.flavor t sk.as_publickey ios
  sign_final ops (new_thin_witness ops sk m.1 m.2.input rng) m.1 sk

/-- Modelled from the spec: `eq_mod_small_cofactor_projective` lives in the
repository's curve-arithmetic layer, not under `src/`.  Per §4.4 and §9, two
projective points that differ only by an element of the curve's small-order
subgroup are treated as equal; the subgroup is the boolean predicate
`small`. -/
def eq_mod_small_cofactor_projective [Sub P] (small : P → Bool) (x y : P) : Bool :=
  small (x - y)

/-- `ThinVrf::verify_thin_vrf` (`thin.rs` lines 134–157): replay the merge,
append `r` (label `Witness`), re-derive `c` (label `ThinVrfChallenge`), and
accept iff `s · combined.input` equals `r + c · combined.preoutput` modulo the
small cofactor component; otherwise fail with `Invalid`. -/
def verify_thin_vrf [SMul S P] [AddCommMonoid P] [Sub P] (ops : TranscriptOps S P)
    (small : P → Bool) (fl : ThinVrf P) (t : List (TEntry P))
    (public : PublicKey P) (ios : List (VrfInOut P)) (signature : Signature S P) :
    Except SignatureError (List (VrfInOut P)) :=
  let m := thin_vrf_merge ops fl t public ios
  let t := m.1 ++ [TEntry.point "Witness" signature.r]
  let c := ops.challenge t "ThinVrfChallenge"
  let lhs := signature.s • m.2.input.pt
  let rhs := signature.r + c • m.2.preoutput.pt
  if eq_mod_small_cofactor_projective small lhs rhs then Except.ok ios
  else Except.error SignatureError.Invalid

/-! ## The `bandersnatch_vrfs` wrapper crate (`src/bandersnatch_vrfs/src/lib.rs`) -/

/-- The abnormal terminations the wrapper can take: `assert_eq!` failure in
`sign_thin_vrf` / `sign_ring_vrf`, and the `unimplemented!()` in
`pedersen_vrf`.  Both abort the call; neither is a recoverable
`SignatureError`. -/
inductive Panic where
  | assertFailed
  | unimplementedCode
  deriving DecidableEq

/-- `Message` (`lib.rs` lines 40–43): a domain string and a message, as byte
strings. -/
structure Message where
  domain : List Nat
  message : List Nat
  deriving DecidableEq

/-- One labelled byte-string append on the merlin transcript used by
`Message::into_vrf_input`. -/
inductive MEntry where
  | bytes (label : String) (b : List Nat)
  deriving DecidableEq

/-- `Message::into_vrf_input` (`lib.rs` lines 57–70): build a merlin
transcript from the fixed label `TemporaryDoNotDeploy`, append the domain
(label `domain`) and the message (label `message`), and sample a uniformly
random curve point from the transcript-seeded reader.  The sampler
(`UniformRand::rand` over `TranscriptIO`, outside `src/`) is modelled from the
spec as a deterministic function `sample` of the seeding label and the
accumulated transcript state. -/
def into_vrf_input (sample : String → List MEntry → P) (m : Message) :
    VrfInput P :=
  let label := "TemporaryDoNotDeploy"
  let t : List MEntry := [MEntry.bytes "domain" m.domain,
                          MEntry.bytes "message" m.message]
  ⟨sample label t⟩

/-- `thin_vrf` (`lib.rs` lines 76–78): the Thin VRF flavor keyed on the curve
generator (the generator point is a parameter of the abstract group). -/
def thin_vrf (gen : P) : ThinVrf P :=
  { keying_base := gen }

/-- `PedersenVrf` flavor of `dleq_vrf`, per §3 of the spec: a keying base and
a blinding base. -/
structure PedersenVrf (P : Type) where
  keying_base : P
  blinding_base : P
  deriving DecidableEq

/-- `pedersen_vrf` (`lib.rs` lines 83–86): the body evaluates
`unimplemented!()` to obtain the blinding base before `PedersenVrf::new` can
run, so every call panics and no `PedersenVrf` value is ever produced. -/
def pedersen_vrf (_gen : P) : Except Panic (PedersenVrf P) :=
  Except.error Panic.unimplementedCode

/-- Modelled from the spec: `dleq_vrf::SecretKey::from_seed` is in the keys
module, not under `src/`.  Per §3 and §6, it derives the secret scalar and the
nonce seed deterministically from the 32-byte seed; the derivation functions
`kdfKey` and `kdfNonce` are uninterpreted. -/
def from_seed (kdfKey : List Nat → S) (kdfNonce : List Nat → List Nat)
    (fl : ThinVrf P) (seed : List Nat) : SecretKey S P :=
  { flavor := fl, key := kdfKey seed, nonce_seed := kdfNonce seed }

/-- `SecretKey::to_public` (`lib.rs` lines 99–101): the public key derived
from the secret scalar. -/
def to_public [SMul S P] (sk : SecretKey S P) : PublicKey P :=
  sk.as_publickey

/-- `vrf::collect_preoutputs_array`, called at `lib.rs` lines 108 and 117:
the list of the preoutputs of the supplied pairs. -/
def collect_preoutputs (ios : List (VrfInOut P)) : List (VrfPreOut P) :=
  ios.map (fun io => io.preoutput)

/-- `ThinVrfSignature<N>` (`lib.rs` lines 129–132). -/
structure ThinVrfSignature (S P : Type) (N : Nat) where
  signature : Signature S P
  preoutputs : List (VrfPreOut P)
  deriving DecidableEq

/-- `RingVrfSignature<N>` (`lib.rs` lines 156–160): the ring proof member is
the unit placeholder. -/
structure RingVrfSignature (S P : Type) (N : Nat) where
  signature : Signature S P
  preoutputs : List (VrfPreOut P)
  ring_proof : Unit
  deriving DecidableEq

namespace Bander

/-- `SecretKey::sign_thin_vrf` of the wrapper (`lib.rs` lines 103–110):
`assert_eq!(ios.len(), N)`, then sign with the inner key and collect the
preoutputs.  The assertion is modelled as the `assertFailed` abnormal
termination. -/
def sign_thin_vrf [SMul S P] [AddCommMonoid P] [Mul S] [Add S] (N : Nat)
    (ops : TranscriptOps S P) (sk : SecretKey S P) (t : List (TEntry P))
    (ios : List (VrfInOut P)) (rng : Nat) :
    Except Panic (ThinVrfSignature S P N) :=
  if ios.length = N then
    let sg := RingVrf.sign_thin_vrf ops sk t ios rng
    Except.ok { signature := sg.2, preoutputs := collect_preoutputs ios }
  else Except.error Panic.assertFailed

/-- `SecretKey::sign_ring_vrf` (`lib.rs` lines 112–120):
`assert_eq!(ios.len(), N)`, then `pedersen_vrf().sign_pedersen_vrf(..)`.
Since `sign_pedersen_vrf` is not under `src/`, it is modelled from the spec
(§4.5) as the uninterpreted `pedSign`, returning a signature and the secret
blinding scalar; the wrapper discards the blinding (`secret_blinding` is
unused) and stores `ring_proof = ()`.  That branch is unreachable: the
`pedersen_vrf()` call panics first. -/
def sign_ring_vrf [SMul S P] (N : Nat) (gen : P)
    (pedSign : List (TEntry P) → List (VrfInOut P) → SecretKey S P → Signature S P × S)
    (sk : SecretKey S P) (t : List (TEntry P)) (ios : List (VrfInOut P)) :
    Except Panic (RingVrfSignature S P N) :=
  if ios.length = N then
    match pedersen_vrf gen with
    | Except.error p => Except.error p
    | Except.ok _pv =>
      let sg := pedSign t ios sk
      let ring_proof := ()
      Except.ok { signature := sg.1, preoutputs := collect_preoutputs ios,
                  ring_proof := ring_proof }
  else Except.error Panic.assertFailed

end Bander

/-! ## Plain Schnorr signatures, from the specification

Modelled from the spec: §4.2 and §8 state that with an empty pair list the
Thin VRF degenerates into "a pure Schnorr signature" over the public key
alone.  These two definitions follow the spec's words for that degenerate
protocol — append the public-key pair, commit `r = k·base`, challenge,
respond `s = k + c·key`, and verify `s·base = r + c·public` modulo the small
cofactor — to be compared with the Thin VRF routines at `ios = []`. -/

/-- Modelled from the spec: a single Schnorr signature over the public key
alone (sign half), per §4.2/§4.3 at N = 0. -/
def schnorr_sign_spec [SMul S P] [Mul S] [Add S] (ops : TranscriptOps S P)
    (sk : SecretKey S P) (t : List (TEntry P)) (rng : Nat) :
    List (TEntry P) × Signature S P :=
  let base := sk.flavor.keying_base
  let t := t ++ [TEntry.ioPair "PublicKey" base (sk.as_publickey (P := P)).pt]
  let k := ops.witnessScalar t "MakeWitness" [sk.nonce_seed] rng
  let r := k • base
  let t := t ++ [TEntry.point "Witness" r]
  let c := ops.challenge t "ThinVrfChallenge"
  (t, { compk := (), r := r, s := k + c * sk.key })

/-- Modelled from the spec: a single Schnorr signature over the public key
alone (verify half), per §4.4 at N = 0: accept iff
`s·keying_base = r + c·public_point` modulo the small cofactor component. -/
def schnorr_verify_spec [SMul S P] [Add P] [Sub P] (ops : TranscriptOps S P)
    (small : P → Bool) (fl : ThinVrf P) (t : List (TEntry P))
    (public : PublicKey P) (sg : Signature S P) : Bool :=
  let t := t ++ [TEntry.ioPair "PublicKey" fl.keying_base public.pt]
  let t := t ++ [TEntry.point "Witness" sg.r]
  let c := ops.challenge t "ThinVrfChallenge"
  eq_mod_small_cofactor_projective small (sg.s • fl.keying_base)
    (sg.r + c • public.pt)

/-! ## A concrete instantiation over the integers

All the transcript-derived quantities below depend nontrivially on the
transcript state, so that evaluating the protocol on them exercises the
append ordering; the "small subgroup" is the subgroup `4ℤ`. -/

/-- Concrete transcript operations over `S = P = ℤ`. -/
def opsZ : TranscriptOps ℤ ℤ :=
  { challenge := fun t _l => (t.length : ℤ) + 1,
    coeff := fun t i => (t.length : ℤ) + (i : ℤ) + 2,
    witnessScalar := fun t _l m rng => (t.length : ℤ) + (m.length : ℤ) + (rng : ℤ) + 7 }

/-- Concrete small-subgroup predicate: the subgroup `4ℤ` of `ℤ`. -/
def smallZ : ℤ → Bool :=
  fun x => decide (x % 4 = 0)

/-- A concrete secret key: keying base 3, secret scalar 11. -/
def skZ : SecretKey ℤ ℤ :=
  { flavor := { keying_base := 3 }, key := 11, nonce_seed := [1, 2, 3] }

/-- The public key of `skZ`. -/
def pkZ : PublicKey ℤ :=
  skZ.as_publickey

/-- A concrete valid input/preoutput pair for `skZ`: `55 = 11 • 5`. -/
def ioZ : VrfInOut ℤ :=
  { input := ⟨5⟩, preoutput := ⟨55⟩ }

/-- A one-element pair list for `skZ`. -/
def iosZ : List (VrfInOut ℤ) :=
  [ioZ]

/-- A concrete stand-in for the unreachable Pedersen signing continuation. -/
def pedSignZ : List (TEntry ℤ) → List (VrfInOut ℤ) → SecretKey ℤ ℤ →
    Signature ℤ ℤ × ℤ :=
  fun t ios _sk => ({ compk := (), r := (t.length : ℤ), s := (ios.length : ℤ) }, 1)

/-- A concrete deterministic point sampler for `into_vrf_input`. -/
def sampleZ : String → List MEntry → ℤ :=
  fun l t => (l.length : ℤ) + 10 * (t.length : ℤ)

/-- A concrete key-derivation function for seeds. -/
def kdfKeyZ : List Nat → ℤ :=
  fun l => (l.sum : ℤ) + 1

/-- A concrete nonce-seed derivation function for seeds. -/
def kdfNonceZ : List Nat → List Nat :=
  fun l => 0 :: l

/-! ## Helper lemmas -/

/-- Scaling every point of a linear combination by `key` scales the
combination. -/
theorem combLin_map_smul [CommRing S] [AddCommGroup P] [Module S P]
    (key : S) (cs : List S) (ps : List P) :
    combLin cs (ps.map (fun p => key • p)) = key • combLin (P := P) cs ps := by
  induction cs generalizing ps with
  | nil => simp [combLin]
  | cons c cs ih =>
    cases ps with
    | nil => simp [combLin]
    | cons p ps =>
      have hc : c • key • p = key • c • p := by
        rw [← mul_smul, mul_comm, mul_smul]
      simp only [List.map_cons, combLin, List.zipWith_cons_cons, List.sum_cons] at ih ⊢
      rw [ih, hc, smul_add]

/-- When every supplied pair and the public key are valid for the secret
scalar `key`, the combined pair produced by `thin_vrf_merge` is valid for
`key` as well. -/
theorem thin_vrf_merge_preoutput [CommRing S] [AddCommGroup P] [Module S P]
    (ops : TranscriptOps S P) (fl : ThinVrf P) (t : List (TEntry P))
    (public : PublicKey P) (ios : List (VrfInOut P)) (key : S)
    (hpk : public.pt = key • fl.keying_base)
    (hval : ∀ io ∈ ios, io.preoutput.pt = key • io.input.pt) :
    (thin_vrf_merge ops fl t public ios).2.preoutput.pt
      = key • (thin_vrf_merge ops fl t public ios).2.input.pt := by
  unfold thin_vrf_merge
  by_cases h : ios.length = 0
  · simp [h, schnorr_io, hpk]
  · simp only [h, if_false, vrfs_delinearize, schnorr_io]
    have hmap : ios.map (fun io => io.preoutput.pt)
        = (ios.map (fun io => io.input.pt)).map (fun p => key • p) := by
      rw [List.map_map]
      exact List.map_congr_left hval
    rw [hmap, combLin_map_smul, hpk, smul_add]

/-! ## Claim theorems -/

/-- C1: for every secret key, transcript, and list of `VrfInOut` pairs in
which each preoutput equals the secret scalar times its input, verifying with
an independently-initialized transcript performing the same append sequence
succeeds: `verify_thin_vrf` applied to the signer's public key, the pair
list, and the signature produced by `sign_thin_vrf` returns `Ok`. -/
theorem thin_vrf_sign_then_verify_ok [CommRing S] [AddCommGroup P] [Module S P]
    (ops : TranscriptOps S P) (small : P → Bool) (sk : SecretKey S P)
    (t : List (TEntry P)) (ios : List (VrfInOut P)) (rng : Nat)
    (hzero : small 0 = true)
    (hval : ∀ io ∈ ios, io.preoutput.pt = sk.key • io.input.pt) :
    verify_thin_vrf ops small sk.flavor t sk.as_publickey ios
      (sign_thin_vrf ops sk t ios rng).2 = Except.ok ios := by
  have hpre := thin_vrf_merge_preoutput ops sk.flavor t sk.as_publickey ios
    sk.key rfl hval
  unfold verify_thin_vrf sign_thin_vrf sign_final new_thin_witness
  simp only [eq_mod_small_cofactor_projective, hpre]
  have hdiff : ∀ (k c : S) (I : P),
      (k + c * sk.key) • I - (k • I + c • sk.key • I) = 0 := by
    intro k c I
    rw [add_smul, mul_smul]
    exact sub_self _
  rw [hdiff, hzero]
  simp

/-- C2: `verify_thin_vrf` accepts (returns `Ok`) if and only if
`s · combined.input` equals `r + c · combined.preoutput` modulo the curve's
small cofactor component; when the equation does not hold it fails with the
`Invalid` error; and these are the only two outcomes. -/
theorem verify_thin_vrf_outcomes [CommRing S] [AddCommGroup P] [Module S P]
    (ops : TranscriptOps S P) (small : P → Bool) (fl : ThinVrf P)
    (t : List (TEntry P)) (public : PublicKey P) (ios : List (VrfInOut P))
    (sg : Signature S P) :
    (verify_thin_vrf ops small fl t public ios sg = Except.ok ios
      ↔ eq_mod_small_cofactor_projective small
          (sg.s • (thin_vrf_merge ops fl t public ios).2.input.pt)
          (sg.r + ops.challenge
              ((thin_vrf_merge ops fl t public ios).1
                ++ [TEntry.point "Witness" sg.r]) "ThinVrfChallenge"
            • (thin_vrf_merge ops fl t public ios).2.preoutput.pt) = true)
    ∧ (verify_thin_vrf ops small fl t public ios sg
        = Except.error SignatureError.Invalid
      ↔ eq_mod_small_cofactor_projective small
          (sg.s • (thin_vrf_merge ops fl t public ios).2.input.pt)
          (sg.r + ops.challenge
              ((thin_vrf_merge ops fl t public ios).1
                ++ [TEntry.point "Witness" sg.r]) "ThinVrfChallenge"
            • (thin_vrf_merge ops fl t public ios).2.preoutput.pt) = false)
    ∧ (verify_thin_vrf ops small fl t public ios sg = Except.ok ios
      ∨ verify_thin_vrf ops small fl t public ios sg
        = Except.error SignatureError.Invalid) := by
  unfold verify_thin_vrf
  by_cases h : eq_mod_small_cofactor_projective small
      (sg.s • (thin_vrf_merge ops fl t public ios).2.input.pt)
      (sg.r + ops.challenge
          ((thin_vrf_merge ops fl t public ios).1
            ++ [TEntry.point "Witness" sg.r]) "ThinVrfChallenge"
        • (thin_vrf_merge ops fl t public ios).2.preoutput.pt) = true
  · simp [h]
  · simp [h]

/-- C3: thin-VRF signing computes exactly these steps in this order: the
witness scalar `k` is derived via the transcript's `witnesses` with label
`MakeWitness` over the secret's nonce seed and the RNG; `r = k · combined.input`;
`r` is appended under label `Witness`; the challenge `c` is derived with label
`ThinVrfChallenge`; and the emitted signature's response is
`s = k + c · secret.key`. -/
theorem sign_thin_vrf_steps [CommRing S] [AddCommGroup P] [Module S P]
    (ops : TranscriptOps S P) (sk : SecretKey S P) (t : List (TEntry P))
    (ios : List (VrfInOut P)) (rng : Nat) :
    sign_thin_vrf ops sk t ios rng =
      (let m := thin_vrf_merge ops sk.flavor t sk.as_publickey ios
       let k := ops.witnessScalar m.1 "MakeWitness" [sk.nonce_seed] rng
       let r := k • m.2.input.pt
       let t2 := m.1 ++ [TEntry.point "Witness" r]
       let c := ops.challenge t2 "ThinVrfChallenge"
       (t2, { compk := (), r := r, s := k + c * sk.key })) :=
  rfl

/-- C1 witness: the correctness theorem evaluated at the concrete integer
instantiation, arity one. -/
theorem thin_vrf_sign_then_verify_ok_witness :
    smallZ 0 = true
    ∧ (∀ io ∈ iosZ, io.preoutput.pt = skZ.key • io.input.pt)
    ∧ verify_thin_vrf opsZ smallZ skZ.flavor [] skZ.as_publickey iosZ
        (sign_thin_vrf opsZ skZ [] iosZ 0).2 = Except.ok iosZ :=
  ⟨by decide, by decide,
    thin_vrf_sign_then_verify_ok opsZ smallZ skZ [] iosZ 0 (by decide) (by decide)⟩

/-- C4: for every public key and non-empty pair list, the combination engine
appends the public-key pair, the count, and the pair list to the transcript,
derives exactly N transcript-derived scalar coefficients — one per supplied
pair, the public-key pair's own coefficient being exactly 1 — and returns
`combined.input = Σ cᵢ·input_i + 1·keying_base` and
`combined.preoutput = Σ cᵢ·preoutput_i + 1·public_point`. -/
theorem thin_vrf_merge_delinearizes [CommRing S] [AddCommGroup P] [Module S P]
    (ops : TranscriptOps S P) (fl : ThinVrf P) (t : List (TEntry P))
    (public : PublicKey P) (ios : List (VrfInOut P)) (h : ios ≠ []) :
    (coeffList ops
        (t ++ [TEntry.ioPair "PublicKey" fl.keying_base public.pt,
               TEntry.count "IOs" ios.length,
               TEntry.ioList "VrfInOut" (ios.map ioEntry)]) ios.length).length
      = ios.length
    ∧ thin_vrf_merge ops fl t public ios =
      (t ++ [TEntry.ioPair "PublicKey" fl.keying_base public.pt,
             TEntry.count "IOs" ios.length,
             TEntry.ioList "VrfInOut" (ios.map ioEntry)],
       { input := ⟨combLin
            (coeffList ops
              (t ++ [TEntry.ioPair "PublicKey" fl.keying_base public.pt,
                     TEntry.count "IOs" ios.length,
                     TEntry.ioList "VrfInOut" (ios.map ioEntry)]) ios.length)
            (ios.map fun io => io.input.pt) + (1 : S) • fl.keying_base⟩,
         preoutput := ⟨combLin
            (coeffList ops
              (t ++ [TEntry.ioPair "PublicKey" fl.keying_base public.pt,
                     TEntry.count "IOs" ios.length,
                     TEntry.ioList "VrfInOut" (ios.map ioEntry)]) ios.length)
            (ios.map fun io => io.preoutput.pt) + (1 : S) • public.pt⟩ }) := by
  have h0 : ¬ ios.length = 0 := by
    simpa [List.length_eq_zero] using h
  constructor
  · simp [coeffList]
  · unfold thin_vrf_merge vrfs_delinearize schnorr_io
    simp [h0, one_smul, List.append_assoc]

/-- C4 witness: the delinearization theorem evaluated at the concrete integer
instantiation, arity one. -/
theorem thin_vrf_merge_delinearizes_witness :
    iosZ ≠ []
    ∧ ((coeffList opsZ
          ([TEntry.ioPair "PublicKey" skZ.flavor.keying_base pkZ.pt,
            TEntry.count "IOs" iosZ.length,
            TEntry.ioList "VrfInOut" (iosZ.map ioEntry)]) iosZ.length).length
        = iosZ.length
      ∧ thin_vrf_merge opsZ skZ.flavor [] pkZ iosZ =
        ([TEntry.ioPair "PublicKey" skZ.flavor.keying_base pkZ.pt,
          TEntry.count "IOs" iosZ.length,
          TEntry.ioList "VrfInOut" (iosZ.map ioEntry)],
         { input := ⟨combLin
              (coeffList opsZ
                ([TEntry.ioPair "PublicKey" skZ.flavor.keying_base pkZ.pt,
                  TEntry.count "IOs" iosZ.length,
                  TEntry.ioList "VrfInOut" (iosZ.map ioEntry)]) iosZ.length)
              (iosZ.map fun io => io.input.pt) + (1 : ℤ) • skZ.flavor.keying_base⟩,
           preoutput := ⟨combLin
              (coeffList opsZ
                ([TEntry.ioPair "PublicKey" skZ.flavor.keying_base pkZ.pt,
                  TEntry.count "IOs" iosZ.length,
                  TEntry.ioList "VrfInOut" (iosZ.map ioEntry)]) iosZ.length)
              (iosZ.map fun io => io.preoutput.pt) + (1 : ℤ) • pkZ.pt⟩ })) :=
  ⟨by decide, thin_vrf_merge_delinearizes opsZ skZ.flavor [] pkZ iosZ (by decide)⟩

/-- C6: with an empty pair list the combination engine appends only the
public-key pair (label `PublicKey`) and returns it unchanged — no `IOs` count
and no `VrfInOut` list are appended — so thin-VRF signing and verification
with an empty pair list coincide with a plain Schnorr signature over the
public key alone. -/
theorem thin_vrf_empty_ios_is_schnorr [CommRing S] [AddCommGroup P] [Module S P]
    (ops : TranscriptOps S P) (small : P → Bool) (fl : ThinVrf P)
    (t : List (TEntry P)) (public : PublicKey P) (sk : SecretKey S P)
    (sg : Signature S P) (rng : Nat) :
    thin_vrf_merge ops fl t public ([] : List (VrfInOut P))
        = (t ++ [TEntry.ioPair "PublicKey" fl.keying_base public.pt],
           schnorr_io fl public)
    ∧ sign_thin_vrf ops sk t [] rng = schnorr_sign_spec ops sk t rng
    ∧ (verify_thin_vrf ops small fl t public [] sg = Except.ok []
        ↔ schnorr_verify_spec ops small fl t public sg = true)
    ∧ (verify_thin_vrf ops small fl t public [] sg
          = Except.error SignatureError.Invalid
        ↔ schnorr_verify_spec ops small fl t public sg = false) := by
  have hif : verify_thin_vrf ops small fl t public [] sg
      = (if schnorr_verify_spec ops small fl t public sg then Except.ok []
         else Except.error SignatureError.Invalid) := rfl
  refine ⟨rfl, rfl, ?_, ?_⟩
  · rw [hif]
    by_cases h : schnorr_verify_spec ops small fl t public sg = true
    · simp [h]
    · simp [h]
  · rw [hif]
    by_cases h : schnorr_verify_spec ops small fl t public sg = true
    · simp [h]
    · simp [h]

/-- C7: `SecretKey::from_seed(seed).to_public()` is deterministic — two
evaluations on the same seed always yield equal `PublicKey` values. -/
theorem from_seed_to_public_deterministic {S P : Type} [SMul S P]
    (kdfKey : List Nat → S) (kdfNonce : List Nat → List Nat) (gen : P)
    (seed1 seed2 : List Nat) (h : seed1 = seed2) :
    to_public (from_seed kdfKey kdfNonce (thin_vrf gen) seed1)
      = to_public (from_seed kdfKey kdfNonce (thin_vrf gen) seed2) := by
  rw [h]

/-- C7 witness: determinism of key generation at a concrete seed. -/
theorem from_seed_to_public_deterministic_witness :
    ([1, 2] : List Nat) = [1, 2]
    ∧ to_public (from_seed kdfKeyZ kdfNonceZ (thin_vrf (3 : ℤ)) [1, 2])
      = to_public (from_seed kdfKeyZ kdfNonceZ (thin_vrf (3 : ℤ)) [1, 2]) :=
  ⟨rfl, from_seed_to_public_deterministic kdfKeyZ kdfNonceZ 3 [1, 2] [1, 2] rfl⟩

/-- C9: `pedersen_vrf()` panics via `unimplemented!()` before a `PedersenVrf`
flavor is ever constructed, so `sign_ring_vrf` never returns a
`RingVrfSignature` for any arity — it aborts with the arity assertion when the
length differs from N and with the `unimplemented!()` panic otherwise — and
the `RingVrfSignature` it is declared to build carries `ring_proof = ()`. -/
theorem sign_ring_vrf_never_returns {S P : Type} [SMul S P] (N : Nat) (gen : P)
    (pedSign : List (TEntry P) → List (VrfInOut P) → SecretKey S P →
      Signature S P × S)
    (sk : SecretKey S P) (t : List (TEntry P)) (ios : List (VrfInOut P)) :
    pedersen_vrf gen = Except.error Panic.unimplementedCode
    ∧ Bander.sign_ring_vrf N gen pedSign sk t ios
        = Except.error
            (if ios.length = N then Panic.unimplementedCode
             else Panic.assertFailed)
    ∧ ∀ rs : RingVrfSignature S P N, rs.ring_proof = () := by
  refine ⟨rfl, ?_, fun _ => rfl⟩
  unfold Bander.sign_ring_vrf pedersen_vrf
  by_cases h : ios.length = N
  · simp [h]
  · simp [h]

/-- C10: `Message::into_vrf_input` is a deterministic function of its domain
and message bytes — two messages with equal domain and equal message yield
equal `VrfInput` points, the point being sampled from a transcript seeded
only by the fixed label `TemporaryDoNotDeploy`, the domain, and the
message. -/
theorem into_vrf_input_deterministic {P : Type}
    (sample : String → List MEntry → P) (m1 m2 : Message)
    (h1 : m1.domain = m2.domain) (h2 : m1.message = m2.message) :
    into_vrf_input sample m1 = into_vrf_input sample m2 := by
  unfold into_vrf_input
  rw [h1, h2]

/-- C10 witness: input-construction determinism at a concrete message. -/
theorem into_vrf_input_deterministic_witness :
    (Message.mk [1] [2]).domain = (Message.mk [1] [2]).domain
    ∧ (Message.mk [1] [2]).message = (Message.mk [1] [2]).message
    ∧ into_vrf_input sampleZ (Message.mk [1] [2])
      = into_vrf_input sampleZ (Message.mk [1] [2]) :=
  ⟨rfl, rfl,
    into_vrf_input_deterministic sampleZ (Message.mk [1] [2])
      (Message.mk [1] [2]) rfl rfl⟩

/-- C5: evaluating the wrapper signing entry points at a pair list whose
length differs from the declared arity N = 2: both abort through the
`assert_eq!(ios.len(), N)` assertion — an unrecoverable panic — rather than
returning the recoverable `InvalidArity` signature error the specification
requires. -/
theorem sign_arity_mismatch_asserts :
    Bander.sign_thin_vrf 2 opsZ skZ [] iosZ 0
      = Except.error Panic.assertFailed
    ∧ Bander.sign_ring_vrf 2 (3 : ℤ) pedSignZ skZ [] iosZ
      = Except.error Panic.assertFailed :=
  ⟨rfl, rfl⟩

end RingVrf
